import Mathlib

/-!
Verification of the reactive state container in `src/Model.js`
(`class Model`, `createModel`) against its natural-language specification.

The embedding is shallow: the wrapped record, the proxy view, the per-cell
listener sets and the function memo are explicit association lists, and every
public operation of the source (`subscribe`, the property setters installed by
`#addProperty`, `#sync`, `watch`, `pick` and its private helpers, and the
`methods` handle returned by `createModel`) is a Lean function threading the
model state.  Selector functions passed to `pick` are represented by a small
first-order expression language (`SExpr`) together with the string that models
the value of `callback.toString()` (the memo key used by `#pickFunction`).
-/

namespace ReactModel

/-- JavaScript values as far as this library observes them: primitives plus
function values.  `fnVal n` is a raw function entry of the wrapped record,
`boundFn n` is that function after `.bind(proxyObject)` (as installed on the
proxy by `#addProperty`, or re-bound by `#pickKey`), `noopFn` is the empty
stand-in `function () { }` that the tracing proxy substitutes for
function-valued properties, and `protoFn n` is the built-in function member
`n` that a plain object inherits from `Object.prototype` (for example
`toString`), possibly rebound by `.bind`. -/
inductive JsVal where
  | str (s : String)
  | num (n : Int)
  | boolean (b : Bool)
  | jsNull
  | jsUndefined
  | fnVal (name : String)
  | boundFn (name : String)
  | noopFn
  | protoFn (name : String)
  deriving DecidableEq, Repr

/-- The result of the JavaScript `typeof v === 'function'` test. -/
def typeofIsFunction : JsVal → Bool
  | .fnVal _ => true
  | .boundFn _ => true
  | .noopFn => true
  | .protoFn _ => true
  | _ => false

/-- Semantics of `f.bind(proxyObject)`: a raw record function becomes a bound
function; binding an already-bound (or built-in) function yields a function
with the same behavior (JavaScript ignores the second bind receiver, and this
model does not distinguish a built-in from its bound copy). -/
def bindTo : JsVal → JsVal
  | .fnVal n => .boundFn n
  | v => v

/-- The function-valued members every plain JavaScript object inherits from
`Object.prototype` (`constructor` is `Object` itself, a function), including
the Annex-B accessor-management functions.  Reading one of these names on a
plain object with no own property of that name yields a function, so
`typeof obj[name] === 'function'` is true for them. -/
def objectProtoFnNames : List String :=
  ["constructor", "hasOwnProperty", "isPrototypeOf", "propertyIsEnumerable",
   "toLocaleString", "toString", "valueOf",
   "__defineGetter__", "__defineSetter__", "__lookupGetter__", "__lookupSetter__"]

/-- Association-list lookup (first match), modelling property lookup on a plain
JavaScript object whose keys are unique. -/
def alookup {α : Type} : List (String × α) → String → Option α
  | [], _ => none
  | (k, v) :: rest, key => if k = key then some v else alookup rest key

/-- Membership test, modelling `Object.prototype.hasOwnProperty`. -/
def hasKey {α : Type} (xs : List (String × α)) (key : String) : Bool :=
  (alookup xs key).isSome

/-- Update the value at a key in place (first match); no change if absent. -/
def aupdate {α : Type} : List (String × α) → String → (α → α) → List (String × α)
  | [], _, _ => []
  | (k, v) :: rest, key, f =>
    if k = key then (k, f v) :: rest else (k, v) :: aupdate rest key f

/-- Set the value at a key, appending a fresh entry when the key is absent.
This models both plain-object property assignment and `Map.prototype.set`. -/
def aset {α : Type} : List (String × α) → String → α → List (String × α)
  | [], key, v => [(key, v)]
  | (k, w) :: rest, key, v =>
    if k = key then (k, v) :: rest else (k, w) :: aset rest key v

/-- Add an element to a JavaScript `Set` (`Set.prototype.add`): appended in
insertion order, ignored when already present. -/
def addIfAbsent (l : Nat) (xs : List Nat) : List Nat :=
  if l ∈ xs then xs else xs ++ [l]

/-- One slot of the public proxy object built by `#addProperty`: function
entries are installed as plain writable data properties holding the bound
function, value entries as a getter/setter pair reading and writing
`#object[key]`. -/
inductive ProxySlot where
  | data (v : JsVal)
  | accessor (key : String)
  deriving DecidableEq, Repr

/-- Messages of the `ModelError` class, one constructor per distinct message
produced by `Model.js`. -/
inductive ModelErrMsg where
  | doesNotExist (key : String)
  | watchRequiresArray
  | pickRequires
  | pickOneRequires
  | useModelRequires
  deriving DecidableEq, Repr

/-- An exception thrown during the trial execution of a selector against the
tracing proxy: either the `ModelError` thrown by the `get` trap for a property
absent from the record, or the `TypeError` the JavaScript runtime throws when
an assignment in strict-mode code hits the `set` trap, which returns
`undefined` (falsish).  All source files of this repository are ES modules and
hence strict-mode code. -/
inductive TraceErr where
  | unknownProp (key : String)
  | setTrapFalsish (key : String)
  deriving DecidableEq, Repr

/-- The exceptions observable from the library: `ModelError`, or the plain
`Error` built in `#pickFunction` from the failing selector source and the
caught exception (`'Failed to determine dependencies of a function' ...`). -/
inductive JsError where
  | modelError (msg : ModelErrMsg)
  | depsFailure (src : String) (inner : TraceErr)
  deriving DecidableEq, Repr

/-- The state of one `Model` instance: the wrapped record `#object`, the
public view `#proxyObject`, the per-key listener sets `#listeners` (present
exactly for the non-function entries), the selector memo `#functionMemos`
keyed by the selector source text, and the `JSON` snapshot `#initialState`
(which drops function entries). -/
structure Model where
  object : List (String × JsVal)
  proxy : List (String × ProxySlot)
  listeners : List (String × List Nat)
  memos : List (String × List String)
  initialState : List (String × JsVal)
  deriving DecidableEq, Repr

/-- `#addProperty(key)`: a function entry is bound and installed as a data
property on the proxy; a value entry gets an empty listener set and a
getter/setter accessor on the proxy. -/
def addProperty (m : Model) (k : String) : Model :=
  match alookup m.object k with
  | none => m
  | some v =>
    if typeofIsFunction v then
      { m with proxy := aset m.proxy k (.data (bindTo v)) }
    else
      { m with listeners := m.listeners ++ [(k, [])],
               proxy := aset m.proxy k (.accessor k) }

/-- Whether `JSON.parse(JSON.stringify(object))` drops an entry holding this
value: function-valued and `undefined`-valued entries disappear from the
snapshot. -/
def jsonDropped (v : JsVal) : Bool :=
  typeofIsFunction v || v == .jsUndefined

/-- The `Model` constructor: `Object.keys(object).forEach(key =>
this.#addProperty(key))`, after snapshotting `#initialState` via a JSON
round-trip (which discards function-valued and `undefined`-valued
entries). -/
def construct (record : List (String × JsVal)) : Model :=
  (record.map (fun e => e.1)).foldl addProperty
    { object := record
      proxy := []
      listeners := []
      memos := []
      initialState := record.filter (fun e => !jsonDropped e.2) }

/-- Reading `#proxyObject[key]`: a data slot yields its value; an accessor
slot runs the getter `() => this.#object[key]`.  The proxy object is a plain
object (reads are never trapped), so a key with no own slot falls back to the
`Object.prototype` chain: the inherited function members read as functions,
anything else reads as `undefined`. -/
def proxyGet (m : Model) (k : String) : JsVal :=
  match alookup m.proxy k with
  | some (.data v) => v
  | some (.accessor key) => (alookup m.object key).getD .jsUndefined
  | none => if objectProtoFnNames.contains k then .protoFn k else .jsUndefined

/-- The listener list `#emitChange(key)` iterates over: each member is invoked
once, in insertion order. -/
def emitChange (m : Model) (key : String) : List Nat :=
  (alookup m.listeners key).getD []

/-- Assignment `#proxyObject[key] = value`.  An accessor slot runs the
installed setter, which writes `#object[key]` and then calls `#emitChange`
synchronously, so the returned list is exactly the listeners invoked before
the write returns.  A data slot (a function entry) is a plain writable
property: the value is silently overwritten and nobody is notified.  An absent
key becomes a fresh data property on the plain proxy object. -/
def proxySet (m : Model) (k : String) (v : JsVal) : Model × List Nat :=
  match alookup m.proxy k with
  | some (.accessor key) =>
    let m1 : Model := { m with object := aset m.object key v }
    (m1, emitChange m1 key)
  | some (.data _) => ({ m with proxy := aset m.proxy k (.data v) }, [])
  | none => ({ m with proxy := m.proxy ++ [(k, .data v)] }, [])

/-- `subscribe(key, listener)`: rejects keys without a listener set, otherwise
adds the listener to the cell's `Set`. -/
def subscribe (m : Model) (k : String) (l : Nat) : Except JsError Model :=
  if hasKey m.listeners k then
    .ok { m with listeners := aupdate m.listeners k (addIfAbsent l) }
  else
    .error (.modelError (.doesNotExist k))

/-- The unsubscribe handle returned by `subscribe`, closing over the key and
the listener: `() => this.#listeners[key].delete(listener)`.  A JavaScript
`Set` holds each element at most once, so `delete` is the removal of every
occurrence. -/
def unsubscribe (m : Model) (k : String) (l : Nat) : Model :=
  { m with listeners := aupdate m.listeners k (fun xs => xs.filter (fun x => x ≠ l)) }

/-- The body of a selector function passed to `pick`, as a small first-order
expression language: literals, property reads `m.k`, property writes
`m.k = e` (whose value is the value of `e`), and sequencing `a, b`. -/
inductive SExpr where
  | lit (v : JsVal)
  | readProp (k : String)
  | writeProp (k : String) (e : SExpr)
  | seq (a b : SExpr)
  deriving DecidableEq, Repr

/-- A selector function: its body together with `src`, the value of
`callback.toString()` that `#pickFunction` uses as the memo key.  Two selector
values with equal `src` are "the same function definition" for memoization. -/
structure Selector where
  src : String
  body : SExpr
  deriving DecidableEq, Repr

instance exceptDecEq {ε α : Type} [DecidableEq ε] [DecidableEq α] :
    DecidableEq (Except ε α) := fun a b =>
  match a, b with
  | .error e, .error e2 =>
    if h : e = e2 then .isTrue (by rw [h]) else .isFalse (by intro hc; cases hc; exact h rfl)
  | .error _, .ok _ => .isFalse (by intro hc; cases hc)
  | .ok _, .error _ => .isFalse (by intro hc; cases hc)
  | .ok v, .ok v2 =>
    if h : v = v2 then .isTrue (by rw [h]) else .isFalse (by intro hc; cases hc; exact h rfl)

/-- Result of running a selector body against the tracing proxy of
`#pickFunction`: the value or the exception, the record after the run, the
`keys` list accumulated by the `get` trap, and the number of times the `get`
trap was entered (the count a counting proxy would report). -/
structure TraceRes where
  ret : Except TraceErr JsVal
  obj : List (String × JsVal)
  keysRead : List String
  reads : Nat
  deriving DecidableEq, Repr

/-- Trial execution of a selector body against the tracing proxy over
`testObject` (which is `this.#object` itself, not a clone).  The `get` trap
throws `ModelError` for a property the record does not own, substitutes the
empty function for function-valued properties without recording them, and
otherwise appends the key to `keys` and returns the raw value.  The `set`
trap body is `return;`: it leaves the record untouched, and because it
returns a falsish value the assignment itself throws `TypeError` in the
selector's strict-mode (ES module) code. -/
def tracedStep (obj : List (String × JsVal)) (ks : List String) (n : Nat) :
    SExpr → TraceRes
  | .lit v => ⟨.ok v, obj, ks, n⟩
  | .readProp k =>
    match alookup obj k with
    | none => ⟨.error (.unknownProp k), obj, ks, n + 1⟩
    | some v =>
      if typeofIsFunction v then ⟨.ok .noopFn, obj, ks, n + 1⟩
      else ⟨.ok v, obj, ks ++ [k], n + 1⟩
  | .writeProp k e =>
    let r := tracedStep obj ks n e
    match r.ret with
    | .error err => ⟨.error err, r.obj, r.keysRead, r.reads⟩
    | .ok _ => ⟨.error (.setTrapFalsish k), r.obj, r.keysRead, r.reads⟩
  | .seq a b =>
    let r := tracedStep obj ks n a
    match r.ret with
    | .error err => ⟨.error err, r.obj, r.keysRead, r.reads⟩
    | .ok _ => tracedStep r.obj r.keysRead r.reads b

/-- Result of running a selector body against the real view
`this.#proxyObject`: the computed value, the model afterwards, and the
listeners invoked by writes along the way. -/
structure RealRes where
  ret : JsVal
  model : Model
  fired : List Nat
  deriving DecidableEq, Repr

/-- Execution of a selector body against the real proxy view (the final
`callback(this.#proxyObject)` of `#pickFunction`).  Reads go through
`proxyGet` (absent keys read as `undefined`), writes go through `proxySet`
and fire listeners synchronously. -/
def realStep (m : Model) : SExpr → RealRes
  | .lit v => ⟨v, m, []⟩
  | .readProp k => ⟨proxyGet m k, m, []⟩
  | .writeProp k e =>
    let r := realStep m e
    let s := proxySet r.model k r.ret
    ⟨r.ret, s.1, r.fired ++ s.2⟩
  | .seq a b =>
    let r := realStep m a
    let r2 := realStep r.model b
    ⟨r2.ret, r2.model, r.fired ++ r2.fired⟩

/-- Outcome of one registry or selector-engine operation: the returned value
or the exception that escaped, the model afterwards (JavaScript exceptions do
not roll back state already changed), the keys for which
`useSyncExternalStore` was invoked (each invocation subscribes the calling
component once, in order), the instrumented-view read count, and the
listeners invoked during the operation. -/
structure Res (α : Type) where
  ret : Except JsError α
  model : Model
  synced : List String
  reads : Nat
  fired : List Nat
  deriving DecidableEq, Repr

/-- The string-indexable function-valued properties of the `Model` instance
itself: its public prototype methods (and `constructor`, which
`objectProtoFnNames` already lists) plus the function members inherited from
`Object.prototype`; private `#`-methods are not reachable by string indexing.
`#sync` tests `typeof this[key] === 'function'` against exactly these
names. -/
def modelMethodNames : List String :=
  ["getProxyObject", "subscribe", "watch", "pick"] ++ objectProtoFnNames

/-- The hook `#sync(key)`: throws for a key without a listener set; returns
without subscribing when `this[key]` is a function on the `Model` instance
(note: `this` here is the `Model` object, not the proxy view, so this branch
fires exactly for keys that collide with the instance's method names);
otherwise calls `useSyncExternalStore`, whose subscribe callback registers the
calling component's listener via `subscribe`. -/
def syncOne (m : Model) (l : Nat) (k : String) : Res Unit :=
  if hasKey m.listeners k then
    if modelMethodNames.contains k then ⟨.ok (), m, [], 0, []⟩
    else
      match subscribe m k l with
      | .error e => ⟨.error e, m, [], 0, []⟩
      | .ok m1 => ⟨.ok (), m1, [k], 0, []⟩
  else ⟨.error (.modelError (.doesNotExist k)), m, [], 0, []⟩

/-- `keys.forEach(key => this.#sync(key))`: syncs in order; a thrown
exception aborts the iteration but keeps the subscriptions already made. -/
def syncList (m : Model) (l : Nat) : List String → Res Unit
  | [] => ⟨.ok (), m, [], 0, []⟩
  | k :: ks =>
    let r := syncOne m l k
    match r.ret with
    | .error e => ⟨.error e, r.model, r.synced, 0, []⟩
    | .ok _ =>
      let r2 := syncList r.model l ks
      ⟨r2.ret, r2.model, r.synced ++ r2.synced, 0, []⟩

/-- `#pickKey(key)`: a function-valued view property is returned re-bound
with no sync; otherwise the key is synced and its current value returned. -/
def pickKey (m : Model) (l : Nat) (k : String) : Res JsVal :=
  if typeofIsFunction (proxyGet m k) then ⟨.ok (bindTo (proxyGet m k)), m, [], 0, []⟩
  else
    let s := syncOne m l k
    match s.ret with
    | .error e => ⟨.error e, s.model, s.synced, 0, []⟩
    | .ok _ => ⟨.ok (proxyGet s.model k), s.model, s.synced, 0, []⟩

/-- `#pickFunction(callback)`.  On a memo hit (keyed by `callback.toString()`)
the memoized keys are synced and the callback is run once against the real
view.  Otherwise the callback is trial-executed against the tracing proxy
(any exception is re-wrapped into the `'Failed to determine dependencies'`
error), the recorded `keys` list is memoized as-is, every recorded key is
synced, and the callback is finally run against the real view. -/
def pickFunction (m : Model) (l : Nat) (f : Selector) : Res JsVal :=
  match alookup m.memos f.src with
  | some keys =>
    let s := syncList m l keys
    match s.ret with
    | .error e => ⟨.error e, s.model, s.synced, 0, s.fired⟩
    | .ok _ =>
      let r := realStep s.model f.body
      ⟨.ok r.ret, r.model, s.synced, 0, s.fired ++ r.fired⟩
  | none =>
    let t := tracedStep m.object [] 0 f.body
    match t.ret with
    | .error e => ⟨.error (.depsFailure f.src e), { m with object := t.obj }, [], t.reads, []⟩
    | .ok _ =>
      let m1 : Model := { m with object := t.obj, memos := aset m.memos f.src t.keysRead }
      let s := syncList m1 l t.keysRead
      match s.ret with
      | .error e => ⟨.error e, s.model, s.synced, t.reads, s.fired⟩
      | .ok _ =>
        let r := realStep s.model f.body
        ⟨.ok r.ret, r.model, s.synced, t.reads, s.fired ++ r.fired⟩

/-- One element of a collection passed to `pick`, as dispatched by
`#pickOne`: a key string, a selector function, or anything else (which
`#pickOne` rejects). -/
inductive PickElem where
  | key (k : String)
  | fnSel (f : Selector)
  | badElem
  deriving DecidableEq, Repr

/-- The argument of `pick`, as dispatched by its `typeof` switch: a string, a
function, an array, a non-null plain object, the value `null` (whose `typeof`
is `'object'` and which is not an array, so it reaches `#pickObject`), or a
value of any other `typeof` (number, boolean, undefined, ...), which hits the
`default` branch. -/
inductive PickArg where
  | key (k : String)
  | fnSel (f : Selector)
  | coll (xs : List PickElem)
  | mapping (es : List (String × PickElem))
  | nullArg
  | badArg
  deriving DecidableEq, Repr

/-- The value returned by `pick`: a scalar for a string or function selection,
an array for an array selection, an object for an object (or `null`)
selection. -/
inductive PickVal where
  | one (v : JsVal)
  | many (vs : List JsVal)
  | mapping (es : List (String × JsVal))
  deriving DecidableEq, Repr

/-- `#pickOne(pick)`: a key string or a function, anything else throws. -/
def pickOne (m : Model) (l : Nat) : PickElem → Res JsVal
  | .key k => pickKey m l k
  | .fnSel f => pickFunction m l f
  | .badElem => ⟨.error (.modelError .pickOneRequires), m, [], 0, []⟩

/-- `#pickArray(picks)`: `picks.map(pick => this.#pickOne(pick))`, threading
the model; a thrown exception aborts the map but keeps earlier effects. -/
def pickList (m : Model) (l : Nat) : List PickElem → Res (List JsVal)
  | [] => ⟨.ok [], m, [], 0, []⟩
  | x :: xs =>
    let r := pickOne m l x
    match r.ret with
    | .error e => ⟨.error e, r.model, r.synced, r.reads, r.fired⟩
    | .ok v =>
      let r2 := pickList r.model l xs
      ⟨r2.ret.map (fun vs => v :: vs), r2.model, r.synced ++ r2.synced,
       r.reads + r2.reads, r.fired ++ r2.fired⟩

/-- `#pickObject(picks)`: `for (let key in picks) exports[key] =
this.#pickOne(picks[key])`, over the object's enumerable keys in insertion
order. -/
def pickMapping (m : Model) (l : Nat) : List (String × PickElem) → Res (List (String × JsVal))
  | [] => ⟨.ok [], m, [], 0, []⟩
  | (k, x) :: xs =>
    let r := pickOne m l x
    match r.ret with
    | .error e => ⟨.error e, r.model, r.synced, r.reads, r.fired⟩
    | .ok v =>
      let r2 := pickMapping r.model l xs
      ⟨r2.ret.map (fun es => (k, v) :: es), r2.model, r.synced ++ r2.synced,
       r.reads + r2.reads, r.fired ++ r2.fired⟩

/-- The public `pick(arg)` and its `typeof` dispatch.  For `null` the
`typeof` test yields `'object'` and `Array.isArray(null)` is `false`, so
`#pickObject(null)` runs; its `for ... in` loop over `null` iterates zero
times and the empty `exports` object is returned. -/
def pick (m : Model) (l : Nat) : PickArg → Res PickVal
  | .key k =>
    let r := pickOne m l (.key k)
    ⟨r.ret.map .one, r.model, r.synced, r.reads, r.fired⟩
  | .fnSel f =>
    let r := pickOne m l (.fnSel f)
    ⟨r.ret.map .one, r.model, r.synced, r.reads, r.fired⟩
  | .coll xs =>
    let r := pickList m l xs
    ⟨r.ret.map .many, r.model, r.synced, r.reads, r.fired⟩
  | .mapping es =>
    let r := pickMapping m l es
    ⟨r.ret.map .mapping, r.model, r.synced, r.reads, r.fired⟩
  | .nullArg => ⟨.ok (.mapping []), m, [], 0, []⟩
  | .badArg => ⟨.error (.modelError .pickRequires), m, [], 0, []⟩

/-- The argument of `watch`: `undefined`, an array of keys, or anything else
(rejected). -/
inductive WatchArg where
  | undefArg
  | keysArg (ks : List String)
  | nonArray
  deriving DecidableEq, Repr

/-- What a call through the `createModel` handle or `watch` evaluates to:
a picked value, or `this` (the `Model` instance, which `watch` returns). -/
inductive HandleRet where
  | value (v : PickVal)
  | modelInstance
  deriving DecidableEq, Repr

/-- `watch(keys)`: validates that the argument is `undefined` or an array,
defaults to every key of `#listeners`, syncs each key in order and returns
`this` (the `Model` instance itself, not the proxy view). -/
def watch (m : Model) (l : Nat) : WatchArg → Res HandleRet
  | .nonArray => ⟨.error (.modelError .watchRequiresArray), m, [], 0, []⟩
  | .undefArg =>
    let s := syncList m l (m.listeners.map (fun e => e.1))
    ⟨s.ret.map (fun _ => .modelInstance), s.model, s.synced, 0, s.fired⟩
  | .keysArg ks =>
    let s := syncList m l ks
    ⟨s.ret.map (fun _ => .modelInstance), s.model, s.synced, 0, s.fired⟩

/-- The callable handle returned by `createModel`: rejects a missing
(`undefined`) argument with `ModelError` and otherwise forwards to
`model.pick(args)`.  `none` models calling the handle with no argument. -/
def methods (m : Model) (l : Nat) : Option PickArg → Res HandleRet
  | none => ⟨.error (.modelError .useModelRequires), m, [], 0, []⟩
  | some a =>
    let r := pick m l a
    ⟨r.ret.map .value, r.model, r.synced, r.reads, r.fired⟩

/-- The `.get()` method of the handle: `model.getProxyObject()`, the live
bound view, touching no state and creating no subscription. -/
def getProxyObject (m : Model) : List (String × ProxySlot) :=
  m.proxy

/-- Projection of an operation outcome to the exception it threw, if any. -/
def retErr {α : Type} : Except JsError α → Option JsError
  | .error e => some e
  | .ok _ => none

theorem retErr_map {α β : Type} (f : α → β) (r : Except JsError α) :
    retErr (r.map f) = retErr r := by
  cases r <;> rfl

theorem alookup_aset_self {α : Type} (xs : List (String × α)) (k : String) (v : α) :
    alookup (aset xs k v) k = some v := by
  induction xs with
  | nil => simp [aset, alookup]
  | cons hd tl ih =>
    by_cases h : hd.1 = k
    · simp [aset, alookup, h]
    · simp [aset, alookup, h, ih]

theorem alookup_aset_ne {α : Type} (xs : List (String × α)) (k k2 : String) (v : α)
    (h : k ≠ k2) : alookup (aset xs k v) k2 = alookup xs k2 := by
  induction xs with
  | nil => simp [aset, alookup, h]
  | cons hd tl ih =>
    by_cases h1 : hd.1 = k
    · simp [aset, alookup, h1, h]
    · simp [aset, alookup, h1, ih]

theorem alookup_aupdate_self {α : Type} (xs : List (String × α)) (k : String) (f : α → α) :
    alookup (aupdate xs k f) k = (alookup xs k).map f := by
  induction xs with
  | nil => simp [aupdate, alookup]
  | cons hd tl ih =>
    by_cases h : hd.1 = k
    · simp [aupdate, alookup, h]
    · simp [aupdate, alookup, h, ih]

theorem alookup_aupdate_ne {α : Type} (xs : List (String × α)) (k k2 : String) (f : α → α)
    (h : k2 ≠ k) : alookup (aupdate xs k f) k2 = alookup xs k2 := by
  induction xs with
  | nil => simp [aupdate, alookup]
  | cons hd tl ih =>
    by_cases h1 : hd.1 = k
    · simp [aupdate, alookup, h1, Ne.symm h]
    · simp [aupdate, alookup, h1, ih]

theorem hasKey_aupdate {α : Type} (xs : List (String × α)) (k k2 : String) (f : α → α) :
    hasKey (aupdate xs k f) k2 = hasKey xs k2 := by
  by_cases h : k2 = k
  · subst h
    simp [hasKey, alookup_aupdate_self]
  · simp [hasKey, alookup_aupdate_ne xs k k2 f h]

theorem aupdate_aupdate {α : Type} (xs : List (String × α)) (k : String) (f g : α → α) :
    aupdate (aupdate xs k f) k g = aupdate xs k (fun v => g (f v)) := by
  induction xs with
  | nil => simp [aupdate]
  | cons hd tl ih =>
    by_cases h : hd.1 = k
    · simp [aupdate, h]
    · simp [aupdate, h, ih]

theorem aupdate_congr {α : Type} (xs : List (String × α)) (k : String) (f g : α → α)
    (h : ∀ v, f v = g v) : aupdate xs k f = aupdate xs k g := by
  induction xs with
  | nil => rfl
  | cons hd tl ih =>
    by_cases h1 : hd.1 = k
    · simp [aupdate, h1, h]
    · simp [aupdate, h1, ih]

theorem alookup_append_of_none {α : Type} (xs ys : List (String × α)) (k : String)
    (h : alookup xs k = none) : alookup (xs ++ ys) k = alookup ys k := by
  induction xs with
  | nil => rfl
  | cons hd tl ih =>
    by_cases h1 : hd.1 = k
    · simp [alookup, h1] at h
    · simp [alookup, h1] at h ⊢
      exact ih h

/-- The `set` trap of the tracing proxy never touches the record: trial
execution leaves `testObject` exactly as it was. -/
theorem tracedStep_obj (e : SExpr) : ∀ obj ks n, (tracedStep obj ks n e).obj = obj := by
  induction e with
  | lit v => intro obj ks n; rfl
  | readProp k =>
    intro obj ks n
    simp only [tracedStep]
    cases alookup obj k with
    | none => rfl
    | some v => by_cases h : typeofIsFunction v <;> simp [h]
  | writeProp k e ih =>
    intro obj ks n
    simp only [tracedStep]
    cases hr : (tracedStep obj ks n e).ret <;> exact ih obj ks n
  | seq a b iha ihb =>
    intro obj ks n
    simp only [tracedStep]
    cases hr : (tracedStep obj ks n a).ret with
    | error e2 => exact iha obj ks n
    | ok v => rw [ihb, iha]

/-- `proxySet` never touches the listener table or the memo table. -/
theorem proxySet_listeners_memos (m : Model) (k : String) (v : JsVal) :
    (proxySet m k v).1.listeners = m.listeners ∧ (proxySet m k v).1.memos = m.memos := by
  simp only [proxySet]
  cases alookup m.proxy k with
  | none => exact ⟨rfl, rfl⟩
  | some slot => cases slot <;> exact ⟨rfl, rfl⟩

/-- Real execution of a selector body changes only the record and the proxy:
listener sets and the function memo are untouched. -/
theorem realStep_listeners_memos (e : SExpr) : ∀ m,
    (realStep m e).model.listeners = m.listeners ∧ (realStep m e).model.memos = m.memos := by
  induction e with
  | lit v => intro m; exact ⟨rfl, rfl⟩
  | readProp k => intro m; exact ⟨rfl, rfl⟩
  | writeProp k e ih =>
    intro m
    simp only [realStep]
    refine ⟨?_, ?_⟩
    · rw [(proxySet_listeners_memos _ k _).1, (ih m).1]
    · rw [(proxySet_listeners_memos _ k _).2, (ih m).2]
  | seq a b iha ihb =>
    intro m
    simp only [realStep]
    refine ⟨?_, ?_⟩
    · rw [(ihb _).1, (iha m).1]
    · rw [(ihb _).2, (iha m).2]

/-- `proxyGet` reads only the record and the proxy table. -/
theorem proxyGet_congr (mA mB : Model) (k : String)
    (h1 : mA.object = mB.object) (h2 : mA.proxy = mB.proxy) :
    proxyGet mA k = proxyGet mB k := by
  simp [proxyGet, h1, h2]

theorem syncOne_eq_error (m : Model) (l : Nat) (k : String)
    (h : hasKey m.listeners k = false) :
    syncOne m l k = ⟨.error (.modelError (.doesNotExist k)), m, [], 0, []⟩ := by
  simp [syncOne, h]

theorem syncOne_eq_skip (m : Model) (l : Nat) (k : String)
    (h1 : hasKey m.listeners k = true) (h2 : k ∈ modelMethodNames) :
    syncOne m l k = ⟨.ok (), m, [], 0, []⟩ := by
  simp [syncOne, h1, h2]

theorem syncOne_eq_sub (m : Model) (l : Nat) (k : String)
    (h1 : hasKey m.listeners k = true) (h2 : k ∉ modelMethodNames) :
    syncOne m l k =
      ⟨.ok (), { m with listeners := aupdate m.listeners k (addIfAbsent l) }, [k], 0, []⟩ := by
  simp [syncOne, subscribe, h1, h2]

/-- `#sync` only ever touches the listener table, and only by adding a
listener to an existing set: record, proxy, memo and the key set of the
listener table are unchanged. -/
theorem syncOne_preserves (m : Model) (l : Nat) (k : String) :
    (syncOne m l k).model.object = m.object ∧
    (syncOne m l k).model.proxy = m.proxy ∧
    (syncOne m l k).model.memos = m.memos ∧
    ∀ k2, hasKey (syncOne m l k).model.listeners k2 = hasKey m.listeners k2 := by
  by_cases h1 : hasKey m.listeners k = true
  · by_cases h2 : k ∈ modelMethodNames
    · rw [syncOne_eq_skip m l k h1 h2]
      exact ⟨rfl, rfl, rfl, fun _ => rfl⟩
    · rw [syncOne_eq_sub m l k h1 h2]
      exact ⟨rfl, rfl, rfl, fun k2 => hasKey_aupdate m.listeners k k2 _⟩
  · rw [syncOne_eq_error m l k (Bool.eq_false_iff.mpr h1)]
    exact ⟨rfl, rfl, rfl, fun _ => rfl⟩

/-- Extension of the previous lemma to `keys.forEach(key => this.#sync(key))`. -/
theorem syncList_preserves (l : Nat) : ∀ (ks : List String) (m : Model),
    (syncList m l ks).model.object = m.object ∧
    (syncList m l ks).model.proxy = m.proxy ∧
    (syncList m l ks).model.memos = m.memos ∧
    ∀ k2, hasKey (syncList m l ks).model.listeners k2 = hasKey m.listeners k2 := by
  intro ks
  induction ks with
  | nil => intro m; exact ⟨rfl, rfl, rfl, fun _ => rfl⟩
  | cons k ks ih =>
    intro m
    simp only [syncList]
    cases hr : (syncOne m l k).ret with
    | error e =>
      exact ⟨(syncOne_preserves m l k).1, (syncOne_preserves m l k).2.1,
             (syncOne_preserves m l k).2.2.1, (syncOne_preserves m l k).2.2.2⟩
    | ok v =>
      refine ⟨?_, ?_, ?_, ?_⟩
      · rw [(ih _).1, (syncOne_preserves m l k).1]
      · rw [(ih _).2.1, (syncOne_preserves m l k).2.1]
      · rw [(ih _).2.2.1, (syncOne_preserves m l k).2.2.1]
      · intro k2
        rw [(ih _).2.2.2 k2, (syncOne_preserves m l k).2.2.2 k2]

/-- Syncing a key list is determined, up to the listener identities added, by
which keys currently own a listener set: two models agreeing on that (and the
same key list) throw the same exception, invoke `useSyncExternalStore` for the
same keys in the same order, and keep agreeing afterwards. -/
theorem syncList_congr (l1 l2 : Nat) : ∀ (ks : List String) (mA mB : Model),
    (∀ k2, hasKey mA.listeners k2 = hasKey mB.listeners k2) →
    (syncList mA l1 ks).ret = (syncList mB l2 ks).ret ∧
    (syncList mA l1 ks).synced = (syncList mB l2 ks).synced ∧
    ∀ k2, hasKey (syncList mA l1 ks).model.listeners k2 =
      hasKey (syncList mB l2 ks).model.listeners k2 := by
  intro ks
  induction ks with
  | nil => intro mA mB h; exact ⟨rfl, rfl, h⟩
  | cons k ks ih =>
    intro mA mB h
    simp only [syncList]
    by_cases h1 : hasKey mB.listeners k = true
    · by_cases h2 : k ∈ modelMethodNames
      · rw [syncOne_eq_skip mA l1 k ((h k).trans h1) h2, syncOne_eq_skip mB l2 k h1 h2]
        exact ih mA mB h
      · rw [syncOne_eq_sub mA l1 k ((h k).trans h1) h2,
            syncOne_eq_sub mB l2 k h1 h2]
        have h3 : ∀ k2,
            hasKey (aupdate mA.listeners k (addIfAbsent l1)) k2 =
            hasKey (aupdate mB.listeners k (addIfAbsent l2)) k2 := by
          intro k2
          rw [hasKey_aupdate, hasKey_aupdate]
          exact h k2
        have ih2 := ih { mA with listeners := aupdate mA.listeners k (addIfAbsent l1) }
          { mB with listeners := aupdate mB.listeners k (addIfAbsent l2) } h3
        exact ⟨ih2.1, by rw [ih2.2.1], ih2.2.2⟩
    · have h1A : hasKey mA.listeners k = false := by
        rw [h k]; exact Bool.eq_false_iff.mpr h1
      rw [syncOne_eq_error mA l1 k h1A, syncOne_eq_error mB l2 k (Bool.eq_false_iff.mpr h1)]
      exact ⟨rfl, rfl, h⟩

/-- Writing through the view changes the record and the proxy table in a way
that depends only on the record and the proxy table. -/
theorem proxySet_congr (mA mB : Model) (k : String) (v : JsVal)
    (h1 : mA.object = mB.object) (h2 : mA.proxy = mB.proxy) :
    (proxySet mA k v).1.object = (proxySet mB k v).1.object ∧
    (proxySet mA k v).1.proxy = (proxySet mB k v).1.proxy := by
  have hpx : alookup mA.proxy k = alookup mB.proxy k := by rw [h2]
  simp only [proxySet]
  rw [hpx]
  cases alookup mB.proxy k with
  | none => exact ⟨h1, by rw [h2]⟩
  | some slot =>
    cases slot with
    | data w => exact ⟨h1, by rw [h2]⟩
    | accessor key => exact ⟨by rw [h1], h2⟩

/-- The value a selector computes against the real view, and the record and
proxy afterwards, depend only on the record and the proxy table — not on who
is subscribed or what is memoized. -/
theorem realStep_congr (e : SExpr) : ∀ (mA mB : Model),
    mA.object = mB.object → mA.proxy = mB.proxy →
    (realStep mA e).ret = (realStep mB e).ret ∧
    (realStep mA e).model.object = (realStep mB e).model.object ∧
    (realStep mA e).model.proxy = (realStep mB e).model.proxy := by
  induction e with
  | lit v => intro mA mB h1 h2; exact ⟨rfl, h1, h2⟩
  | readProp k => intro mA mB h1 h2; exact ⟨proxyGet_congr mA mB k h1 h2, h1, h2⟩
  | writeProp k e ih =>
    intro mA mB h1 h2
    simp only [realStep]
    have ihe := ih mA mB h1 h2
    have hps := proxySet_congr (realStep mA e).model (realStep mB e).model k
      (realStep mA e).ret ihe.2.1 ihe.2.2
    refine ⟨ihe.1, ?_, ?_⟩
    · rw [← ihe.1]
      exact hps.1
    · rw [← ihe.1]
      exact hps.2
  | seq a b iha ihb =>
    intro mA mB h1 h2
    simp only [realStep]
    have ha := iha mA mB h1 h2
    have hb := ihb (realStep mA a).model (realStep mB a).model ha.2.1 ha.2.2
    exact ⟨hb.1, hb.2.1, hb.2.2⟩

theorem addProperty_object_memos (m : Model) (k : String) :
    (addProperty m k).object = m.object ∧ (addProperty m k).memos = m.memos := by
  simp only [addProperty]
  cases alookup m.object k with
  | none => exact ⟨rfl, rfl⟩
  | some v => by_cases h : typeofIsFunction v <;> simp [h]

theorem foldl_addProperty_object_memos : ∀ (ks : List String) (m : Model),
    (ks.foldl addProperty m).object = m.object ∧ (ks.foldl addProperty m).memos = m.memos := by
  intro ks
  induction ks with
  | nil => intro m; exact ⟨rfl, rfl⟩
  | cons k ks ih =>
    intro m
    refine ⟨?_, ?_⟩
    · rw [List.foldl_cons, (ih _).1, (addProperty_object_memos m k).1]
    · rw [List.foldl_cons, (ih _).2, (addProperty_object_memos m k).2]

/-- The constructor installs accessors and listener sets without ever touching
the wrapped record itself. -/
theorem construct_object (record : List (String × JsVal)) :
    (construct record).object = record :=
  (foldl_addProperty_object_memos _ _).1

/-- A freshly constructed model has an empty function memo. -/
theorem construct_memos (record : List (String × JsVal)) :
    (construct record).memos = [] :=
  (foldl_addProperty_object_memos _ _).2

theorem hasKey_of_mem_keys {α : Type} : ∀ (xs : List (String × α)) (k : String),
    k ∈ xs.map (fun e => e.1) → hasKey xs k = true := by
  intro xs
  induction xs with
  | nil => intro k h; simp at h
  | cons hd tl ih =>
    intro k h
    by_cases h1 : hd.1 = k
    · simp [hasKey, alookup, h1]
    · rw [List.map_cons] at h
      have h2 : k ∈ tl.map (fun e => e.1) := by
        rcases List.mem_cons.mp h with hh | hh
        · exact absurd hh.symm h1
        · exact hh
      have h3 := ih k h2
      simp only [hasKey, alookup, h1, if_false]
      simpa [hasKey] using h3

theorem alookup_eq_none_of_hasKey_false {α : Type} (xs : List (String × α)) (k : String)
    (h : hasKey xs k = false) : alookup xs k = none := by
  cases hv : alookup xs k with
  | none => rfl
  | some v => simp [hasKey, hv] at h

theorem addProperty_absent (m : Model) (k k2 : String) (hne : k2 ≠ k)
    (h1 : hasKey m.listeners k = false) (h2 : alookup m.proxy k = none) :
    hasKey (addProperty m k2).listeners k = false ∧
    alookup (addProperty m k2).proxy k = none := by
  simp only [addProperty]
  cases alookup m.object k2 with
  | none => exact ⟨h1, h2⟩
  | some v =>
    by_cases hf : typeofIsFunction v = true
    · simp only [hf, if_true]
      exact ⟨h1, by rw [alookup_aset_ne m.proxy k2 k _ hne, h2]⟩
    · have hf2 : typeofIsFunction v = false := Bool.eq_false_iff.mpr hf
      simp only [hf2, Bool.false_eq_true, if_false]
      refine ⟨?_, by rw [alookup_aset_ne m.proxy k2 k _ hne, h2]⟩
      have hl := alookup_eq_none_of_hasKey_false m.listeners k h1
      simp [hasKey, alookup_append_of_none _ _ _ hl, alookup, hne]

theorem foldl_addProperty_absent (k : String) : ∀ (ks : List String) (m : Model),
    (∀ k2 ∈ ks, k2 ≠ k) →
    hasKey m.listeners k = false → alookup m.proxy k = none →
    hasKey (ks.foldl addProperty m).listeners k = false ∧
    alookup (ks.foldl addProperty m).proxy k = none := by
  intro ks
  induction ks with
  | nil => intro m _ h1 h2; exact ⟨h1, h2⟩
  | cons k2 ks ih =>
    intro m hk h1 h2
    rw [List.foldl_cons]
    have hstep := addProperty_absent m k k2 (hk k2 (List.mem_cons_self k2 ks)) h1 h2
    exact ih (addProperty m k2) (fun k3 h3 => hk k3 (List.mem_cons_of_mem k2 h3))
      hstep.1 hstep.2

/-- A key that was never part of the initial record owns no listener set and
no proxy slot in the constructed model. -/
theorem construct_absent (record : List (String × JsVal)) (k : String)
    (h : hasKey record k = false) :
    hasKey (construct record).listeners k = false ∧
    alookup (construct record).proxy k = none := by
  have hmem : ∀ k2 ∈ record.map (fun e => e.1), k2 ≠ k := by
    intro k2 h2 hc
    subst hc
    rw [hasKey_of_mem_keys record k2 h2] at h
    cases h
  exact foldl_addProperty_absent k (record.map (fun e => e.1))
    { object := record, proxy := [], listeners := [], memos := [],
      initialState := record.filter (fun e => !jsonDropped e.2) } hmem rfl rfl

/-- Over a list of key strings none of which names a function-valued view
property, `#pickArray` performs exactly the `#sync` calls of `watch` on that
list: same resulting model, same `useSyncExternalStore` invocations in the
same order, and the same exception if one is thrown. -/
theorem pickList_keys (l : Nat) : ∀ (ks : List String) (m : Model),
    (∀ k ∈ ks, typeofIsFunction (proxyGet m k) = false) →
    (pickList m l (ks.map PickElem.key)).model = (syncList m l ks).model ∧
    (pickList m l (ks.map PickElem.key)).synced = (syncList m l ks).synced ∧
    retErr (pickList m l (ks.map PickElem.key)).ret = retErr (syncList m l ks).ret := by
  intro ks
  induction ks with
  | nil => intro m _; exact ⟨rfl, rfl, rfl⟩
  | cons k ks ih =>
    intro m h
    have hk := h k (List.mem_cons_self k ks)
    rw [List.map_cons]
    simp only [pickList, syncList, pickOne, pickKey, hk, Bool.false_eq_true, if_false]
    cases hret : (syncOne m l k).ret with
    | error e => exact ⟨rfl, rfl, rfl⟩
    | ok v =>
      have hpre := syncOne_preserves m l k
      have h2 : ∀ k2 ∈ ks, typeofIsFunction (proxyGet (syncOne m l k).model k2) = false := by
        intro k2 hk2
        rw [proxyGet_congr _ m k2 hpre.1 hpre.2.1]
        exact h k2 (List.mem_cons_of_mem k hk2)
      have ih2 := ih (syncOne m l k).model h2
      refine ⟨ih2.1, by rw [ih2.2.1], ?_⟩
      rw [retErr_map]
      exact ih2.2.2

/-- The model state inside `#pickFunction` right after a fresh selector has
been trial-executed and its recorded keys memoized, before the sync loop
runs.  Proof-layer abbreviation for the corresponding subterm of
`pickFunction`. -/
def tracedModel (m : Model) (f : Selector) : Model :=
  { m with object := (tracedStep m.object [] 0 f.body).obj,
           memos := aset m.memos f.src (tracedStep m.object [] 0 f.body).keysRead }

/-- Unfolding of `#pickFunction` on a fresh selector whose trial execution
and sync loop both complete. -/
theorem pickFunction_trace_ok_eq (m : Model) (l : Nat) (f : Selector) (v : JsVal)
    (h0 : alookup m.memos f.src = none)
    (hv : (tracedStep m.object [] 0 f.body).ret = .ok v)
    (hu : (syncList (tracedModel m f) l (tracedStep m.object [] 0 f.body).keysRead).ret.isOk = true) :
    pickFunction m l f =
      ⟨.ok (realStep (syncList (tracedModel m f) l (tracedStep m.object [] 0 f.body).keysRead).model f.body).ret,
       (realStep (syncList (tracedModel m f) l (tracedStep m.object [] 0 f.body).keysRead).model f.body).model,
       (syncList (tracedModel m f) l (tracedStep m.object [] 0 f.body).keysRead).synced,
       (tracedStep m.object [] 0 f.body).reads,
       (syncList (tracedModel m f) l (tracedStep m.object [] 0 f.body).keysRead).fired ++
         (realStep (syncList (tracedModel m f) l (tracedStep m.object [] 0 f.body).keysRead).model f.body).fired⟩ := by
  cases hu2 : (syncList (tracedModel m f) l (tracedStep m.object [] 0 f.body).keysRead).ret with
  | error e => rw [hu2] at hu; cases hu
  | ok u =>
    simp only [tracedModel] at hu2 ⊢
    simp only [pickFunction, h0, hv, hu2]

/-- Unfolding of `#pickFunction` on a memo hit whose sync loop completes. -/
theorem pickFunction_memo_hit_eq (m : Model) (l : Nat) (f : Selector) (K : List String)
    (u : Unit) (hm : alookup m.memos f.src = some K)
    (hu : (syncList m l K).ret = .ok u) :
    pickFunction m l f =
      ⟨.ok (realStep (syncList m l K).model f.body).ret,
       (realStep (syncList m l K).model f.body).model,
       (syncList m l K).synced, 0,
       (syncList m l K).fired ++ (realStep (syncList m l K).model f.body).fired⟩ := by
  simp only [pickFunction, hm, hu]

/-- A successful fresh `#pickFunction` call implies its trial execution and
its sync loop both completed. -/
theorem pickFunction_fresh_isOk (m : Model) (l : Nat) (f : Selector)
    (h0 : alookup m.memos f.src = none)
    (h1 : (pickFunction m l f).ret.isOk = true) :
    (tracedStep m.object [] 0 f.body).ret.isOk = true ∧
    (syncList (tracedModel m f) l (tracedStep m.object [] 0 f.body).keysRead).ret.isOk = true := by
  cases hv : (tracedStep m.object [] 0 f.body).ret with
  | error e => simp [pickFunction, h0, hv, Except.isOk, Except.toBool] at h1
  | ok v =>
    cases hu : (syncList (tracedModel m f) l (tracedStep m.object [] 0 f.body).keysRead).ret with
    | error e =>
      simp only [tracedModel] at hu
      simp [pickFunction, h0, hv, hu, Except.isOk, Except.toBool] at h1
    | ok u => exact ⟨rfl, rfl⟩

/-! ## The claims -/

/-- C3 (counterexample): on the model built from the record `a ↦ 1`, calling
the `createModel` handle with no arguments does not return the live bound
view — it throws. -/
theorem handle_no_args_rejected_cx :
    (methods (construct [("a", JsVal.num 1)]) 0 none).ret.isOk = false := by
  decide

/-- C3 (amended): calling the handle returned by `createModel` with no
arguments throws `ModelError` (the `useModel requires ...` message) and
changes nothing — no subscription is created.  The live bound view is instead
available through the `.get` method. -/
theorem handle_no_args_throws (m : Model) (l : Nat) :
    methods m l none = ⟨.error (.modelError .useModelRequires), m, [], 0, []⟩ ∧
    getProxyObject m = m.proxy :=
  ⟨rfl, rfl⟩

/-- C10: calling `pick` (or the handle) with the argument `null` returns an
empty object, creates no subscription, invokes no listener and raises no
error: because `typeof null` is `'object'` and `Array.isArray(null)` is
`false`, `null` is routed to `#pickObject`, whose `for ... in` loop iterates
zero times. -/
theorem pick_null_returns_empty_object (m : Model) (l : Nat) :
    pick m l .nullArg = ⟨.ok (.mapping []), m, [], 0, []⟩ ∧
    methods m l (some .nullArg) = ⟨.ok (.value (.mapping [])), m, [], 0, []⟩ :=
  ⟨rfl, rfl⟩

/-- C4 (counterexample): on the record `a ↦ 1`, calling the handle with the
key sequence `["a"]` returns the array of current values, while
`watch(["a"])` returns the `Model` instance itself — the two calls return
different values, so they are not equivalent as claimed. -/
theorem handle_keys_vs_watch_value_differs :
    (methods (construct [("a", JsVal.num 1)]) 0 (some (.coll [.key "a"]))).ret =
      .ok (.value (.many [.num 1])) ∧
    (watch (construct [("a", JsVal.num 1)]) 0 (.keysArg ["a"])).ret = .ok .modelInstance ∧
    (methods (construct [("a", JsVal.num 1)]) 0 (some (.coll [.key "a"]))).ret ≠
      (watch (construct [("a", JsVal.num 1)]) 0 (.keysArg ["a"])).ret := by
  refine ⟨by decide, by decide, by decide⟩

/-- C4 (amended): for a sequence of key strings none of which is backed by a
function, calling the handle with the sequence creates exactly the
subscriptions of `watch` on that sequence — the same resulting model, the
same `useSyncExternalStore` calls in the same order, and the same exception
when one is thrown — but the returned values differ: the handle call returns
the array of current cell values while `watch` returns the model instance. -/
theorem handle_keys_refines_watch (m : Model) (l : Nat) (ks : List String)
    (h : ∀ k ∈ ks, typeofIsFunction (proxyGet m k) = false) :
    (methods m l (some (.coll (ks.map PickElem.key)))).model =
      (watch m l (.keysArg ks)).model ∧
    (methods m l (some (.coll (ks.map PickElem.key)))).synced =
      (watch m l (.keysArg ks)).synced ∧
    retErr (methods m l (some (.coll (ks.map PickElem.key)))).ret =
      retErr (watch m l (.keysArg ks)).ret := by
  have hpl := pickList_keys l ks m h
  simp only [methods, pick, watch]
  refine ⟨hpl.1, by rw [hpl.2.1], ?_⟩
  rw [retErr_map, retErr_map, retErr_map]
  exact hpl.2.2

theorem handle_keys_refines_watch_witness :
    (∀ k ∈ ["a"], typeofIsFunction (proxyGet (construct [("a", JsVal.num 1)]) k) = false) ∧
    ((methods (construct [("a", JsVal.num 1)]) 0 (some (.coll (["a"].map PickElem.key)))).model =
      (watch (construct [("a", JsVal.num 1)]) 0 (.keysArg ["a"])).model ∧
    (methods (construct [("a", JsVal.num 1)]) 0 (some (.coll (["a"].map PickElem.key)))).synced =
      (watch (construct [("a", JsVal.num 1)]) 0 (.keysArg ["a"])).synced ∧
    retErr (methods (construct [("a", JsVal.num 1)]) 0 (some (.coll (["a"].map PickElem.key)))).ret =
      retErr (watch (construct [("a", JsVal.num 1)]) 0 (.keysArg ["a"])).ret) :=
  ⟨by decide, handle_keys_refines_watch (construct [("a", JsVal.num 1)]) 0 ["a"] (by decide)⟩

/-- C7 (counterexample): a selector reading a key absent from the record does
not raise the unknown-key `ModelError` at the call site — the exception the
trial execution throws is caught by `#pickFunction` and re-raised as the
plain `Error` built from `'Failed to determine dependencies of a function'`,
wrapping the unknown-key message. -/
theorem selector_unknown_key_wrapped :
    (pickFunction (construct [("a", JsVal.num 1)]) 0 ⟨"(m) => m.zzz", .readProp "zzz"⟩).ret =
      .error (.depsFailure "(m) => m.zzz" (.unknownProp "zzz")) ∧
    (pickFunction (construct [("a", JsVal.num 1)]) 0 ⟨"(m) => m.zzz", .readProp "zzz"⟩).ret ≠
      .error (.modelError (.doesNotExist "zzz")) := by
  refine ⟨by decide, by decide⟩

/-- C7 (amended): for a key `k` that was never part of the initial record,
`watch([k])` throws the unknown-key `ModelError` synchronously and `pick` of
a selector reading `k` throws the dependency-trace wrapper `Error` carrying
the unknown-key failure, both leaving the model untouched (no partial
subscription).  `pick(k)` throws the same unknown-key `ModelError` the same
way — unless `k` names a function-valued member the plain view object
inherits from `Object.prototype` (`toString`, `hasOwnProperty`, ...), in
which case `#pickKey`'s `typeof` test sees the inherited function and
returns it bound, with no error and no subscription. -/
theorem unknown_key_rejected (record : List (String × JsVal)) (l : Nat) (k : String)
    (h : hasKey record k = false) :
    (k ∉ objectProtoFnNames →
      pickKey (construct record) l k =
        ⟨.error (.modelError (.doesNotExist k)), construct record, [], 0, []⟩) ∧
    (k ∈ objectProtoFnNames →
      pickKey (construct record) l k =
        ⟨.ok (.protoFn k), construct record, [], 0, []⟩) ∧
    watch (construct record) l (.keysArg [k]) =
      ⟨.error (.modelError (.doesNotExist k)), construct record, [], 0, []⟩ ∧
    ∀ src : String,
      pickFunction (construct record) l ⟨src, .readProp k⟩ =
        ⟨.error (.depsFailure src (.unknownProp k)), construct record, [], 1, []⟩ := by
  have habs := construct_absent record k h
  have hsync := syncOne_eq_error (construct record) l k habs.1
  refine ⟨?_, ?_, ?_, ?_⟩
  · intro hnp
    have hget : proxyGet (construct record) k = .jsUndefined := by
      simp [proxyGet, habs.2, hnp]
    simp only [pickKey, hget, typeofIsFunction, Bool.false_eq_true, if_false, hsync]
  · intro hp
    have hget : proxyGet (construct record) k = .protoFn k := by
      simp [proxyGet, habs.2, hp]
    simp only [pickKey, hget, typeofIsFunction, if_true, bindTo]
  · simp only [watch, syncList, hsync]
    rfl
  · intro src
    have hobj : alookup (construct record).object k = none := by
      rw [construct_object]
      exact alookup_eq_none_of_hasKey_false record k h
    simp only [pickFunction, construct_memos, alookup, tracedStep, hobj]
    rw [← construct_memos record]

theorem unknown_key_rejected_witness :
    (hasKey [("a", JsVal.num 1)] "zzz" = false ∧
      (("zzz" ∉ objectProtoFnNames →
        pickKey (construct [("a", JsVal.num 1)]) 0 "zzz" =
          ⟨.error (.modelError (.doesNotExist "zzz")), construct [("a", JsVal.num 1)], [], 0, []⟩) ∧
      ("zzz" ∈ objectProtoFnNames →
        pickKey (construct [("a", JsVal.num 1)]) 0 "zzz" =
          ⟨.ok (.protoFn "zzz"), construct [("a", JsVal.num 1)], [], 0, []⟩) ∧
      watch (construct [("a", JsVal.num 1)]) 0 (.keysArg ["zzz"]) =
        ⟨.error (.modelError (.doesNotExist "zzz")), construct [("a", JsVal.num 1)], [], 0, []⟩ ∧
      ∀ src : String,
        pickFunction (construct [("a", JsVal.num 1)]) 0 ⟨src, .readProp "zzz"⟩ =
          ⟨.error (.depsFailure src (.unknownProp "zzz")), construct [("a", JsVal.num 1)], [], 1, []⟩)) ∧
    (hasKey [("a", JsVal.num 1)] "toString" = false ∧
      (("toString" ∉ objectProtoFnNames →
        pickKey (construct [("a", JsVal.num 1)]) 0 "toString" =
          ⟨.error (.modelError (.doesNotExist "toString")), construct [("a", JsVal.num 1)], [], 0, []⟩) ∧
      ("toString" ∈ objectProtoFnNames →
        pickKey (construct [("a", JsVal.num 1)]) 0 "toString" =
          ⟨.ok (.protoFn "toString"), construct [("a", JsVal.num 1)], [], 0, []⟩) ∧
      watch (construct [("a", JsVal.num 1)]) 0 (.keysArg ["toString"]) =
        ⟨.error (.modelError (.doesNotExist "toString")), construct [("a", JsVal.num 1)], [], 0, []⟩ ∧
      ∀ src : String,
        pickFunction (construct [("a", JsVal.num 1)]) 0 ⟨src, .readProp "toString"⟩ =
          ⟨.error (.depsFailure src (.unknownProp "toString")), construct [("a", JsVal.num 1)], [], 1, []⟩)) :=
  ⟨⟨by decide, unknown_key_rejected [("a", JsVal.num 1)] 0 "zzz" (by decide)⟩,
   ⟨by decide, unknown_key_rejected [("a", JsVal.num 1)] 0 "toString" (by decide)⟩⟩

/-- C1 (code evaluated at the failing input): on the record `watch ↦ 0`, the
selector reading exactly the key `"watch"` traces `{"watch"}` as its
dependency set (visible in the memo) and `pick` returns its value — yet
`#sync` creates no subscription for it, because `typeof this["watch"]` tests
the `Model` instance, whose `watch` method is a function.  A subsequent write
to `"watch"` therefore invokes no listener, violating dependency inference
soundness. -/
theorem sync_skips_method_named_key :
    (pickFunction (construct [("watch", JsVal.num 0)]) 0
        ⟨"(m) => m.watch", .readProp "watch"⟩).ret = .ok (.num 0) ∧
    alookup (pickFunction (construct [("watch", JsVal.num 0)]) 0
        ⟨"(m) => m.watch", .readProp "watch"⟩).model.memos "(m) => m.watch" =
      some ["watch"] ∧
    (pickFunction (construct [("watch", JsVal.num 0)]) 0
        ⟨"(m) => m.watch", .readProp "watch"⟩).synced = [] ∧
    (proxySet (pickFunction (construct [("watch", JsVal.num 0)]) 0
        ⟨"(m) => m.watch", .readProp "watch"⟩).model "watch" (.num 5)).2 = [] := by
  refine ⟨by decide, by decide, by decide, by decide⟩

/-- C8 (code evaluated at the failing input): on the record `todo ↦ "test"`,
trial-executing the strict-mode selector that assigns `m.todo = 1` does leave
the record unchanged, fires no listener and creates no subscription — but it
is not a silent no-op: the `set` trap returns a falsish value, so the
assignment throws `TypeError`, which `#pickFunction` re-raises as the
`'Failed to determine dependencies'` error.  The no-op stand-in half of the
claim does hold: a traced read of a function-valued property yields the empty
function and records no dependency. -/
theorem traced_write_throws_not_silent :
    (pickFunction (construct [("todo", JsVal.str "test"), ("setTodo", JsVal.fnVal "setTodo")]) 0
        ⟨"(m) => m.todo = 1", .writeProp "todo" (.lit (.num 1))⟩).ret =
      .error (.depsFailure "(m) => m.todo = 1" (.setTrapFalsish "todo")) ∧
    (pickFunction (construct [("todo", JsVal.str "test"), ("setTodo", JsVal.fnVal "setTodo")]) 0
        ⟨"(m) => m.todo = 1", .writeProp "todo" (.lit (.num 1))⟩).model =
      construct [("todo", JsVal.str "test"), ("setTodo", JsVal.fnVal "setTodo")] ∧
    (pickFunction (construct [("todo", JsVal.str "test"), ("setTodo", JsVal.fnVal "setTodo")]) 0
        ⟨"(m) => m.todo = 1", .writeProp "todo" (.lit (.num 1))⟩).fired = [] ∧
    (pickFunction (construct [("todo", JsVal.str "test"), ("setTodo", JsVal.fnVal "setTodo")]) 0
        ⟨"(m) => m.todo = 1", .writeProp "todo" (.lit (.num 1))⟩).synced = [] ∧
    tracedStep [("todo", JsVal.str "test"), ("setTodo", JsVal.fnVal "setTodo")] [] 0
        (.readProp "setTodo") = ⟨.ok .noopFn, [("todo", JsVal.str "test"),
        ("setTodo", JsVal.fnVal "setTodo")], [], 1⟩ := by
  refine ⟨by decide, by decide, by decide, by decide, by decide⟩

/-- C2 (counterexample): the selector reading `a` twice is memoized with the
keys list `["a", "a"]` — the dependency recorded in the function memo
contains the property twice, not exactly once; no dedup happens before
caching, and `#sync` consequently runs once per occurrence. -/
theorem memo_keeps_duplicates :
    alookup (pickFunction (construct [("a", JsVal.num 1)]) 0
        ⟨"(m) => m.a + m.a", .seq (.readProp "a") (.readProp "a")⟩).model.memos
      "(m) => m.a + m.a" = some ["a", "a"] ∧
    ¬ (["a", "a"].count "a" = 1) ∧
    (pickFunction (construct [("a", JsVal.num 1)]) 0
        ⟨"(m) => m.a + m.a", .seq (.readProp "a") (.readProp "a")⟩).synced = ["a", "a"] := by
  refine ⟨by decide, by decide, by decide⟩

/-- After a fresh selector's trial execution succeeds, the function memo maps
its source text to exactly the recorded key sequence. -/
theorem pickFunction_fresh_memo (m : Model) (l : Nat) (f : Selector)
    (h0 : alookup m.memos f.src = none)
    (h1 : (tracedStep m.object [] 0 f.body).ret.isOk = true) :
    alookup (pickFunction m l f).model.memos f.src =
      some (tracedStep m.object [] 0 f.body).keysRead := by
  simp only [pickFunction, h0]
  cases hret : (tracedStep m.object [] 0 f.body).ret with
  | error e => rw [hret] at h1; cases h1
  | ok v =>
    split
    next x err heq => cases heq
    next x a heq =>
      split
      · rw [(syncList_preserves l _ _).2.2.1]
        exact alookup_aset_self m.memos f.src _
      · rw [(realStep_listeners_memos f.body _).2, (syncList_preserves l _ _).2.2.1]
        exact alookup_aset_self m.memos f.src _

/-- C2 (amended): `#pickFunction` memoizes exactly the ordered key sequence
recorded during trial execution, duplicates included — a property read `n`
times appears `n` times in the memo entry, and each occurrence is synced.
(The caller's listener still ends up in the cell's `Set` only once, since
`Set.add` ignores re-insertion.) -/
theorem memo_records_full_trace (m : Model) (l : Nat) (f : Selector)
    (h0 : alookup m.memos f.src = none)
    (h1 : (tracedStep m.object [] 0 f.body).ret.isOk = true) :
    alookup (pickFunction m l f).model.memos f.src =
      some (tracedStep m.object [] 0 f.body).keysRead :=
  pickFunction_fresh_memo m l f h0 h1

theorem memo_records_full_trace_witness :
    alookup (construct [("a", JsVal.num 1)]).memos "(m) => m.a + m.a" = none ∧
    (tracedStep (construct [("a", JsVal.num 1)]).object [] 0
      (SExpr.seq (.readProp "a") (.readProp "a"))).ret.isOk = true ∧
    alookup (pickFunction (construct [("a", JsVal.num 1)]) 0
        ⟨"(m) => m.a + m.a", .seq (.readProp "a") (.readProp "a")⟩).model.memos
      "(m) => m.a + m.a" =
      some (tracedStep (construct [("a", JsVal.num 1)]).object [] 0
        (SExpr.seq (.readProp "a") (.readProp "a"))).keysRead :=
  ⟨by decide, by decide,
    memo_records_full_trace (construct [("a", JsVal.num 1)]) 0
      ⟨"(m) => m.a + m.a", .seq (.readProp "a") (.readProp "a")⟩ (by decide) (by decide)⟩

/-- C6 (counterexample): on the record `greet ↦ function, name ↦ "a"`, an
assignment to `greet` through the public view raises nothing — there is no
`ReadOnlyError` anywhere in the code.  The bound function is installed as a
plain writable data property, so the write silently replaces it on the view
(the raw record keeps the original entry) and notifies no listener. -/
theorem write_fn_key_silently_overwrites :
    (proxySet (construct [("greet", JsVal.fnVal "greet"), ("name", JsVal.str "a")])
        "greet" (JsVal.str "x")).2 = [] ∧
    alookup (proxySet (construct [("greet", JsVal.fnVal "greet"), ("name", JsVal.str "a")])
        "greet" (JsVal.str "x")).1.proxy "greet" = some (.data (.str "x")) ∧
    (proxySet (construct [("greet", JsVal.fnVal "greet"), ("name", JsVal.str "a")])
        "greet" (JsVal.str "x")).1.object =
      [("greet", JsVal.fnVal "greet"), ("name", JsVal.str "a")] := by
  refine ⟨by decide, by decide, by decide⟩

/-- C6 (amended): writing a function-backed key through the view is not
rejected — it silently overwrites the data property, never touches the record
or the listener table, and fires no listener.  The second half of the claim
holds as stated: `pick(k)` on a function-backed key returns the bound
function, performs no sync and leaves the model unchanged, so a later write
to any value-backed key invokes exactly the listeners it would have invoked
had the pick never happened. -/
theorem fn_key_pick_no_subscription (m : Model) (l : Nat) (g : String) (w v : JsVal)
    (hd : alookup m.proxy g = some (.data w))
    (hf : typeofIsFunction w = true) :
    pickKey m l g = ⟨.ok (bindTo w), m, [], 0, []⟩ ∧
    (proxySet m g v).1.object = m.object ∧
    (proxySet m g v).1.listeners = m.listeners ∧
    (proxySet m g v).2 = [] ∧
    (proxySet m g v).1.proxy = aset m.proxy g (.data v) := by
  have hget : proxyGet m g = w := by simp [proxyGet, hd]
  refine ⟨?_, ?_, ?_, ?_, ?_⟩
  · simp only [pickKey, hget, hf, if_true]
  · simp only [proxySet, hd]
  · simp only [proxySet, hd]
  · simp only [proxySet, hd]
  · simp only [proxySet, hd]

theorem fn_key_pick_no_subscription_witness :
    alookup (construct [("greet", JsVal.fnVal "greet"), ("name", JsVal.str "a")]).proxy
      "greet" = some (.data (.boundFn "greet")) ∧
    typeofIsFunction (JsVal.boundFn "greet") = true ∧
    (pickKey (construct [("greet", JsVal.fnVal "greet"), ("name", JsVal.str "a")]) 0 "greet" =
      ⟨.ok (bindTo (.boundFn "greet")),
        construct [("greet", JsVal.fnVal "greet"), ("name", JsVal.str "a")], [], 0, []⟩ ∧
    (proxySet (construct [("greet", JsVal.fnVal "greet"), ("name", JsVal.str "a")])
        "greet" (JsVal.num 5)).1.object =
      (construct [("greet", JsVal.fnVal "greet"), ("name", JsVal.str "a")]).object ∧
    (proxySet (construct [("greet", JsVal.fnVal "greet"), ("name", JsVal.str "a")])
        "greet" (JsVal.num 5)).1.listeners =
      (construct [("greet", JsVal.fnVal "greet"), ("name", JsVal.str "a")]).listeners ∧
    (proxySet (construct [("greet", JsVal.fnVal "greet"), ("name", JsVal.str "a")])
        "greet" (JsVal.num 5)).2 = [] ∧
    (proxySet (construct [("greet", JsVal.fnVal "greet"), ("name", JsVal.str "a")])
        "greet" (JsVal.num 5)).1.proxy =
      aset (construct [("greet", JsVal.fnVal "greet"), ("name", JsVal.str "a")]).proxy
        "greet" (.data (.num 5))) :=
  ⟨by decide, by decide,
    fn_key_pick_no_subscription (construct [("greet", JsVal.fnVal "greet"), ("name", JsVal.str "a")])
      0 "greet" (JsVal.boundFn "greet") (JsVal.num 5) (by decide) (by decide)⟩

/-- C5: memoization idempotence.  A second `pick(f)` with the same textual
identity performs no trial execution (zero reads through the instrumented
view — the counting proxy is never even built), adds nothing to the memo,
invokes `useSyncExternalStore` for exactly the key list of the first call (so
the caller is subscribed to the same key set), and returns the result of a
fresh execution of the selector against the current real view. -/
theorem pick_memoization_idempotent (m : Model) (l1 l2 : Nat) (f : Selector)
    (h0 : alookup m.memos f.src = none)
    (h1 : (pickFunction m l1 f).ret.isOk = true) :
    (pickFunction (pickFunction m l1 f).model l2 f).reads = 0 ∧
    (pickFunction (pickFunction m l1 f).model l2 f).synced = (pickFunction m l1 f).synced ∧
    (pickFunction (pickFunction m l1 f).model l2 f).model.memos =
      (pickFunction m l1 f).model.memos ∧
    (pickFunction (pickFunction m l1 f).model l2 f).ret =
      .ok (realStep (pickFunction m l1 f).model f.body).ret := by
  obtain ⟨hv1, hu1⟩ := pickFunction_fresh_isOk m l1 f h0 h1
  cases hv : (tracedStep m.object [] 0 f.body).ret with
  | error e => rw [hv] at hv1; cases hv1
  | ok v =>
  cases hu : (syncList (tracedModel m f) l1 (tracedStep m.object [] 0 f.body).keysRead).ret with
  | error e => rw [hu] at hu1; cases hu1
  | ok u =>
  have r1eq := pickFunction_trace_ok_eq m l1 f v h0 hv (by rw [hu]; rfl)
  have hKmemo := pickFunction_fresh_memo m l1 f h0 (by rw [hv]; rfl)
  have hhk : ∀ k2, hasKey (pickFunction m l1 f).model.listeners k2 =
      hasKey (tracedModel m f).listeners k2 := by
    intro k2
    simp only [r1eq]
    rw [(realStep_listeners_memos f.body _).1]
    exact (syncList_preserves l1 _ _).2.2.2 k2
  have hcongr := syncList_congr l2 l1 (tracedStep m.object [] 0 f.body).keysRead
    (pickFunction m l1 f).model (tracedModel m f) hhk
  have hu2 : (syncList (pickFunction m l1 f).model l2
      (tracedStep m.object [] 0 f.body).keysRead).ret = .ok u := hcongr.1.trans hu
  have r2eq := pickFunction_memo_hit_eq (pickFunction m l1 f).model l2 f
    (tracedStep m.object [] 0 f.body).keysRead u hKmemo hu2
  refine ⟨?_, ?_, ?_, ?_⟩
  · simp only [r2eq]
  · simp only [r2eq]
    rw [hcongr.2.1]
    simp only [r1eq]
  · simp only [r2eq]
    rw [(realStep_listeners_memos f.body _).2, (syncList_preserves l2 _ _).2.2.1]
  · simp only [r2eq]
    exact congrArg Except.ok
      (realStep_congr f.body _ (pickFunction m l1 f).model
        (syncList_preserves l2 _ _).1 (syncList_preserves l2 _ _).2.1).1

theorem pick_memoization_idempotent_witness :
    alookup (construct [("a", JsVal.num 1), ("b", JsVal.num 2)]).memos "(m) => m.a" = none ∧
    (pickFunction (construct [("a", JsVal.num 1), ("b", JsVal.num 2)]) 0
      ⟨"(m) => m.a", .readProp "a"⟩).ret.isOk = true ∧
    ((pickFunction (pickFunction (construct [("a", JsVal.num 1), ("b", JsVal.num 2)]) 0
        ⟨"(m) => m.a", .readProp "a"⟩).model 1 ⟨"(m) => m.a", .readProp "a"⟩).reads = 0 ∧
    (pickFunction (pickFunction (construct [("a", JsVal.num 1), ("b", JsVal.num 2)]) 0
        ⟨"(m) => m.a", .readProp "a"⟩).model 1 ⟨"(m) => m.a", .readProp "a"⟩).synced =
      (pickFunction (construct [("a", JsVal.num 1), ("b", JsVal.num 2)]) 0
        ⟨"(m) => m.a", .readProp "a"⟩).synced ∧
    (pickFunction (pickFunction (construct [("a", JsVal.num 1), ("b", JsVal.num 2)]) 0
        ⟨"(m) => m.a", .readProp "a"⟩).model 1 ⟨"(m) => m.a", .readProp "a"⟩).model.memos =
      (pickFunction (construct [("a", JsVal.num 1), ("b", JsVal.num 2)]) 0
        ⟨"(m) => m.a", .readProp "a"⟩).model.memos ∧
    (pickFunction (pickFunction (construct [("a", JsVal.num 1), ("b", JsVal.num 2)]) 0
        ⟨"(m) => m.a", .readProp "a"⟩).model 1 ⟨"(m) => m.a", .readProp "a"⟩).ret =
      .ok (realStep (pickFunction (construct [("a", JsVal.num 1), ("b", JsVal.num 2)]) 0
        ⟨"(m) => m.a", .readProp "a"⟩).model (SExpr.readProp "a")).ret) :=
  ⟨by decide, by decide,
    pick_memoization_idempotent (construct [("a", JsVal.num 1), ("b", JsVal.num 2)]) 0 1
      ⟨"(m) => m.a", .readProp "a"⟩ (by decide) (by decide)⟩

theorem filter_ne_idem (l : Nat) (xs : List Nat) :
    (xs.filter (fun x => x ≠ l)).filter (fun x => x ≠ l) = xs.filter (fun x => x ≠ l) := by
  rw [List.filter_filter]
  simp

/-- C9: notification fan-out.  Writing a value-backed cell invokes exactly the
currently subscribed listeners, each exactly once, synchronously (the fired
list is produced by the setter before `proxySet` returns).  A listener removed
beforehand through its unsubscribe handle is not invoked; the handle removes
exactly that listener (all other keys and listeners untouched) and invoking it
twice is a no-op equal to invoking it once. -/
theorem notification_fanout (m : Model) (k : String) (v : JsVal) (L : List Nat) (l : Nat)
    (hpx : alookup m.proxy k = some (.accessor k))
    (hL : alookup m.listeners k = some L)
    (hnd : L.Nodup) :
    (proxySet m k v).2 = L ∧
    (∀ x ∈ L, (proxySet m k v).2.count x = 1) ∧
    (proxySet (unsubscribe m k l) k v).2 = L.filter (fun x => x ≠ l) ∧
    l ∉ (proxySet (unsubscribe m k l) k v).2 ∧
    unsubscribe (unsubscribe m k l) k l = unsubscribe m k l ∧
    alookup (unsubscribe m k l).listeners k = some (L.filter (fun x => x ≠ l)) ∧
    (∀ k2, k2 ≠ k → alookup (unsubscribe m k l).listeners k2 = alookup m.listeners k2) := by
  have h2 : (proxySet m k v).2 = L := by
    simp [proxySet, hpx, emitChange, hL]
  have h3 : (proxySet (unsubscribe m k l) k v).2 = L.filter (fun x => x ≠ l) := by
    simp [proxySet, unsubscribe, hpx, emitChange, alookup_aupdate_self, hL]
  refine ⟨h2, ?_, h3, ?_, ?_, ?_, ?_⟩
  · intro x hx
    rw [h2]
    exact List.count_eq_one_of_mem hnd hx
  · rw [h3]
    simp
  · simp only [unsubscribe]
    congr 1
    rw [aupdate_aupdate]
    exact aupdate_congr _ _ _ _ (fun xs => filter_ne_idem l xs)
  · simp [unsubscribe, alookup_aupdate_self, hL]
  · intro k2 hk2
    simp [unsubscribe, alookup_aupdate_ne _ _ _ _ hk2]

/-- Concrete registry used to witness the fan-out theorem: the record
`count ↦ 0` with two independent listeners subscribed to `count`. -/
def counterModel : Model :=
  { object := [("count", JsVal.num 0)],
    proxy := [("count", ProxySlot.accessor "count")],
    listeners := [("count", [1, 2])],
    memos := [],
    initialState := [("count", JsVal.num 0)] }

theorem notification_fanout_witness :
    alookup counterModel.proxy "count" = some (.accessor "count") ∧
    alookup counterModel.listeners "count" = some [1, 2] ∧
    ([1, 2] : List Nat).Nodup ∧
    ((proxySet counterModel "count" (JsVal.num 5)).2 = [1, 2] ∧
      (∀ x ∈ ([1, 2] : List Nat),
        (proxySet counterModel "count" (JsVal.num 5)).2.count x = 1) ∧
      (proxySet (unsubscribe counterModel "count" 1) "count" (JsVal.num 5)).2 =
        ([1, 2] : List Nat).filter (fun x => x ≠ 1) ∧
      1 ∉ (proxySet (unsubscribe counterModel "count" 1) "count" (JsVal.num 5)).2 ∧
      unsubscribe (unsubscribe counterModel "count" 1) "count" 1 =
        unsubscribe counterModel "count" 1 ∧
      alookup (unsubscribe counterModel "count" 1).listeners "count" =
        some (([1, 2] : List Nat).filter (fun x => x ≠ 1)) ∧
      (∀ k2, k2 ≠ "count" →
        alookup (unsubscribe counterModel "count" 1).listeners k2 =
          alookup counterModel.listeners k2)) :=
  ⟨by decide, by decide, by decide,
    notification_fanout counterModel "count" (JsVal.num 5) [1, 2] 1
      (by decide) (by decide) (by decide)⟩

end ReactModel
